import Mathlib

/-!
# Verification of the Covid-Dashboard data pipeline

Shallow embedding of the data-handling functions of
`python-project-uma.py`: the freshness tracker (`up_to_date`,
`change_last_update`), the cached loader (`load_data`) and the
reshape-and-join pipeline (`load_world_data`), together with proofs of
the specification claims about them.

Dates (the wide-table column headers, already parsed by
`pd.to_datetime`) are modelled as natural numbers ordered
chronologically; latitude/longitude cells as `Option ℚ` (`none` is a
missing cell, NaN); metric cells as `Option ℤ`.
-/

namespace CovidDash

/-- The whitespace test of the Python `str.isspace` method, restricted to the whitespace characters
that can realistically surround the marker content. -/
def isSpaceChar (c : Char) : Bool :=
  c == ' ' || c == '\t' || c == '\n' || c == '\r'

/-- Python `str.strip` semantics: remove leading and trailing whitespace. -/
def stripStr (s : String) : String :=
  String.mk (((s.toList.dropWhile isSpaceChar).reverse.dropWhile isSpaceChar).reverse)

/-- The persistent state touched by the loader: the three local cache
files under `data/` and the `last_updated.dat` marker file (`none`
models a missing or unreadable file). Tables are abstract here; the
concrete table type is introduced later. -/
structure FS (τ : Type) where
  cacheC : τ
  cacheD : τ
  cacheR : τ
  marker : Option String
  deriving DecidableEq

/-- `up_to_date` (source lines 18–35): reads `last_updated.dat`,
strips it, and compares with the `%d.%m.%Y` string of the current date; any
failure (missing file, unreadable file) yields `False` via the bare
`except`. -/
def up_to_date (fs : FS τ) (today : String) : Bool :=
  match fs.marker with
  | none => false
  | some s => today == stripStr s

/-- `change_last_update` (source lines 38–43): overwrite
`last_updated.dat` with the `%d.%m.%Y` string of the current date. -/
def change_last_update (fs : FS τ) (today : String) : FS τ :=
  { fs with marker := some today }

/-- Outcome of one `pd.read_csv(url)` call: success, an `HTTPError`
(non-2xx response, the only class the source catches), or any other
transport exception such as `urllib.error.URLError` for an unreachable
network. -/
inductive FetchResult (τ : Type) where
  | ok (t : τ)
  | httpError
  | otherError
  deriving DecidableEq

/-- Outcome of `load_data`: either a normal return carrying the three
tables, whether the fallback warning was shown, whether the network
was touched, and the final file-system state — or an uncaught
exception propagating out of the function. -/
inductive LoadOutcome (τ : Type) where
  | result (tables : τ × τ × τ) (warned : Bool) (networkUsed : Bool) (fs : FS τ)
  | raised
  deriving DecidableEq

/-- `load_data` (source lines 172–210). If the marker is fresh, read
the three cache files (no network). Otherwise fetch the three URLs in
order; on `HTTPError` anywhere, warn and read all three caches; on
success write the caches and update the marker; any other exception
propagates uncaught. -/
def load_data (fs : FS τ) (today : String)
    (fc fd fr : FetchResult τ) : LoadOutcome τ :=
  if up_to_date fs today then
    .result (fs.cacheC, fs.cacheD, fs.cacheR) false false fs
  else
    match fc with
    | .httpError => .result (fs.cacheC, fs.cacheD, fs.cacheR) true true fs
    | .otherError => .raised
    | .ok tc =>
      match fd with
      | .httpError => .result (fs.cacheC, fs.cacheD, fs.cacheR) true true fs
      | .otherError => .raised
      | .ok td =>
        match fr with
        | .httpError => .result (fs.cacheC, fs.cacheD, fs.cacheR) true true fs
        | .otherError => .raised
        | .ok tr =>
          .result (tc, td, tr) false true
            (change_last_update { fs with cacheC := tc, cacheD := td, cacheR := tr } today)

/-! ## The reshape-and-join pipeline (`load_world_data`, source lines 214–272) -/

/-- One row of a wide-format input table: the four id columns
`Province/State, Country/Region, Lat, Long` followed by one cumulative
cell per date column (aligned with the date list of the table; a missing
cell is `none`). -/
structure RawRow where
  province : String
  country : String
  lat : Option ℚ
  lon : Option ℚ
  vals : List (Option ℤ)
  deriving DecidableEq

/-- A wide-format table (`RawSeriesTable`): the ordered list of date
columns (already parsed chronologically) and the rows. -/
structure RawTable where
  dates : List ℕ
  rows : List RawRow
  deriving DecidableEq

/-- One row of the melted (long-format) table: id columns plus
(`date`, metric value). -/
structure MeltRow where
  province : String
  country : String
  lat : Option ℚ
  lon : Option ℚ
  date : ℕ
  value : Option ℤ
  deriving DecidableEq

/-- `DataFrame.melt` with `id_vars.` `pandas` stacks the value columns
one variable at a time, all rows of the first date column, then all
rows of the second, and so on. -/
def melt (t : RawTable) : List MeltRow :=
  t.dates.enum.flatMap fun p =>
    t.rows.map fun r =>
      ⟨r.province, r.country, r.lat, r.lon, p.2, r.vals.getD p.1 none⟩

/-- Equality on the five-column merge key
`Province/State, Country/Region, Lat, Long, date`. `pandas.merge`
treats NaN keys as equal to each other, matching `Option` equality. -/
def keyMatch (a b : MeltRow) : Bool :=
  a.province == b.province && a.country == b.country &&
  a.lat == b.lat && a.lon == b.lon && a.date == b.date

/-- A row of the doubly left-joined long table (`JoinedRecord`). -/
structure MergedRow where
  province : String
  country : String
  lat : Option ℚ
  lon : Option ℚ
  date : ℕ
  confirmed : Option ℤ
  deaths : Option ℤ
  recovered : Option ℤ
  deriving DecidableEq

/-- The list of metric values a left join contributes for one left
row: the values of all key-matching right rows, or a single `none`
(NaN) when no right row matches. -/
def joinVals (ms : List MeltRow) (c : MeltRow) : List (Option ℤ) :=
  match ms.filter (keyMatch c) with
  | [] => [none]
  | a :: l => (a :: l).map MeltRow.value

/-- The two successive left merges of source lines 231–238: confirmed
⟕ deaths ⟕ recovered on the five-column key. -/
def merge3 (cs ds rs : List MeltRow) : List MergedRow :=
  cs.flatMap fun c =>
    (joinVals ds c).flatMap fun dv =>
      (joinVals rs c).map fun rv =>
        ⟨c.province, c.country, c.lat, c.lon, c.date, c.value, dv, rv⟩

/-- Strict lexicographic (code-point) order on country names, the
order `pandas` sorts string keys by. (Equivalent to the Mathlib
`String` order via `String.lt_iff_toList_lt`, but stated on the
character lists so that it evaluates.) -/
def strLt (s t : String) : Prop :=
  List.Lex (· < ·) s.data t.data

instance : DecidableRel strLt := fun s t =>
  inferInstanceAs (Decidable (List.Lex (· < ·) s.data t.data))

/-- The groupby key order used by `groupby` on country and date:
lexicographic on (country, date). -/
def keyLe (a b : String × ℕ) : Prop :=
  strLt a.1 b.1 ∨ (a.1 = b.1 ∧ a.2 ≤ b.2)

instance : DecidableRel keyLe := fun a b =>
  inferInstanceAs (Decidable (strLt a.1 b.1 ∨ (a.1 = b.1 ∧ a.2 ≤ b.2)))

/-- The sorted, de-duplicated (country, date) key list of the merged
table — the index of the grouped-and-aggregated
result (which `pandas` returns sorted, so the subsequent
`sort_values(by=["country", "date"])` is the identity on it). -/
def sortedKeys (m : List MergedRow) : List (String × ℕ) :=
  List.insertionSort keyLe ((m.map fun r => (r.country, r.date)).dedup)

/-- All merged rows belonging to one (country, date) group. -/
def groupRows (m : List MergedRow) (k : String × ℕ) : List MergedRow :=
  m.filter fun r => r.country == k.1 && r.date == k.2

/-- `pandas` `sum` aggregation: NaN cells are skipped, an all-NaN
group sums to 0. -/
def sumOpt (l : List (Option ℤ)) : ℤ :=
  (l.filterMap id).sum

/-- `pandas` `mean` aggregation: NaN cells are skipped, an all-NaN
group has a NaN mean. -/
def meanOpt (l : List (Option ℚ)) : Option ℚ :=
  match l.filterMap id with
  | [] => none
  | v => some (v.sum / v.length)

/-- One row of the aggregated frame right after
`groupby` aggregation (source line 246), before the
daily columns are added. -/
structure AggRow where
  country : String
  date : ℕ
  lat : Option ℚ
  lon : Option ℚ
  total_confirmed : ℤ
  total_deaths : ℤ
  total_recovered : ℤ
  deriving DecidableEq

/-- The `groupby` aggregation step of source line 246: group on
(country, date), take the mean of lat and lon and the sum of the
three metric columns. -/
def aggregate (m : List MergedRow) : List AggRow :=
  (sortedKeys m).map fun k =>
    ⟨k.1, k.2, meanOpt ((groupRows m k).map MergedRow.lat),
      meanOpt ((groupRows m k).map MergedRow.lon),
      sumOpt ((groupRows m k).map MergedRow.confirmed),
      sumOpt ((groupRows m k).map MergedRow.deaths),
      sumOpt ((groupRows m k).map MergedRow.recovered)⟩

/-- One row of the final output table (`CountryDayAggregate`). -/
structure OutRow where
  country : String
  date : ℕ
  lat : ℚ
  lon : ℚ
  total_confirmed : ℤ
  total_deaths : ℤ
  total_recovered : ℤ
  daily_confirmed : ℤ
  daily_deaths : ℤ
  daily_recovered : ℤ
  daily_active : ℤ
  deriving DecidableEq

/-- Lines 258–270: `daily_* = total_*.diff()` over the WHOLE frame
(no per-country grouping in the source), then `fillna(0)` (turning the
first NaN diff of the frame and any NaN lat/lon into 0), then clamping
negative daily values to 0, then `daily_active`. `prev` carries the
totals of the previous row (`none` at the first row of the frame, where
`diff` yields NaN). -/
def addDaily (prev : Option (ℤ × ℤ × ℤ)) : List AggRow → List OutRow
  | [] => []
  | r :: rs =>
    { country := r.country
      date := r.date
      lat := r.lat.getD 0
      lon := r.lon.getD 0
      total_confirmed := r.total_confirmed
      total_deaths := r.total_deaths
      total_recovered := r.total_recovered
      daily_confirmed :=
        match prev with
        | none => 0
        | some p => max (r.total_confirmed - p.1) 0
      daily_deaths :=
        match prev with
        | none => 0
        | some p => max (r.total_deaths - p.2.1) 0
      daily_recovered :=
        match prev with
        | none => 0
        | some p => max (r.total_recovered - p.2.2) 0
      daily_active := r.total_confirmed - r.total_recovered - r.total_deaths } ::
    addDaily (some (r.total_confirmed, r.total_deaths, r.total_recovered)) rs

/-- `load_world_data` (source lines 214–272) as a pure function of the
three tables returned by `load_data`: melt each table, left-join
deaths and recovered onto confirmed, aggregate per (country, date),
sort, difference, fill, clamp, and add active cases. -/
def load_world_data (conf deaths recov : RawTable) : List OutRow :=
  addDaily none (aggregate (merge3 (melt conf) (melt deaths) (melt recov)))

/-- The nearest earlier output row with the same country, in the
(country, date)-ascending row order of the output. -/
def prevSameCountry (out : List OutRow) (j : ℕ) : Option OutRow :=
  match out[j]? with
  | none => none
  | some r => ((out.take j).filter fun x => x.country == r.country).getLast?

/-- Non-strict version of `strLt`. -/
def strLe (s t : String) : Prop :=
  strLt s t ∨ s = t

/-! ## Concrete example inputs (used by witnesses and counterexamples) -/

/-- The confirmed table of the worked example of the spec: two countries
"A" and "B", two dates, cumulative confirmed totals [10, 15] and
[100, 90] (the second country has an engineered decrease). -/
def exConf : RawTable :=
  ⟨[0, 1],
   [⟨"", "A", none, none, [some 10, some 15]⟩,
    ⟨"", "B", none, none, [some 100, some 90]⟩]⟩

/-- Deaths table of the worked example: all zero. -/
def exDeaths : RawTable :=
  ⟨[0, 1],
   [⟨"", "A", none, none, [some 0, some 0]⟩,
    ⟨"", "B", none, none, [some 0, some 0]⟩]⟩

/-- Recovered table of the worked example: all zero. -/
def exRecov : RawTable :=
  ⟨[0, 1],
   [⟨"", "A", none, none, [some 0, some 0]⟩,
    ⟨"", "B", none, none, [some 0, some 0]⟩]⟩

/-- A recovered table exceeding the confirmed counts (an inconsistent
upstream revision): country "A" reports 20 recovered against 10
confirmed. -/
def exRecovBig : RawTable :=
  ⟨[0, 1],
   [⟨"", "A", none, none, [some 20, some 20]⟩,
    ⟨"", "B", none, none, [some 0, some 0]⟩]⟩

/-! ## Helper lemmas -/

theorem addDaily_mem {prev : Option (ℤ × ℤ × ℤ)} {l : List AggRow} {o : OutRow}
    (h : o ∈ addDaily prev l) :
    0 ≤ o.daily_confirmed ∧ 0 ≤ o.daily_deaths ∧ 0 ≤ o.daily_recovered ∧
    o.daily_active = o.total_confirmed - o.total_recovered - o.total_deaths := by
  induction l generalizing prev with
  | nil => simp [addDaily] at h
  | cons r rs ih =>
    simp only [addDaily, List.mem_cons] at h
    rcases h with h | h
    · subst h
      refine ⟨?_, ?_, ?_, rfl⟩ <;> cases prev <;> simp [le_max_right]
    · exact ih h

theorem addDaily_map_key (prev : Option (ℤ × ℤ × ℤ)) (l : List AggRow) :
    (addDaily prev l).map (fun o => (o.country, o.date)) =
      l.map (fun a => (a.country, a.date)) := by
  induction l generalizing prev with
  | nil => rfl
  | cons r rs ih => simp [addDaily, ih]

theorem aggregate_map_key (m : List MergedRow) :
    (aggregate m).map (fun a => (a.country, a.date)) = sortedKeys m := by
  simp only [aggregate, List.map_map]
  exact List.map_id _

theorem out_map_key (conf deaths recov : RawTable) :
    (load_world_data conf deaths recov).map (fun o => (o.country, o.date)) =
      sortedKeys (merge3 (melt conf) (melt deaths) (melt recov)) := by
  unfold load_world_data
  rw [addDaily_map_key, aggregate_map_key]

theorem joinVals_ne_nil (ms : List MeltRow) (c : MeltRow) : joinVals ms c ≠ [] := by
  unfold joinVals
  split
  · simp
  · simp

theorem mem_merge3_key (cs ds rs : List MeltRow) (p : String × ℕ) :
    p ∈ (merge3 cs ds rs).map (fun r => (r.country, r.date)) ↔
      p ∈ cs.map (fun r => (r.country, r.date)) := by
  rw [merge3, List.map_flatMap]
  simp only [List.mem_flatMap, List.mem_map]
  constructor
  · rintro ⟨c, hc, a, ⟨dv, _, rv, _, hrow⟩, hkey⟩
    subst hrow
    exact ⟨c, hc, hkey⟩
  · rintro ⟨c, hc, hpe⟩
    obtain ⟨dv, hdv⟩ := List.exists_mem_of_ne_nil _ (joinVals_ne_nil ds c)
    obtain ⟨rv, hrv⟩ := List.exists_mem_of_ne_nil _ (joinVals_ne_nil rs c)
    exact ⟨c, hc,
      ⟨c.province, c.country, c.lat, c.lon, c.date, c.value, dv, rv⟩,
      ⟨dv, hdv, rv, hrv, rfl⟩, hpe⟩

theorem addDaily_length (prev : Option (ℤ × ℤ × ℤ)) (l : List AggRow) :
    (addDaily prev l).length = l.length := by
  induction l generalizing prev with
  | nil => rfl
  | cons r rs ih => simp [addDaily, ih]

theorem addDaily_getElem? {prev : Option (ℤ × ℤ × ℤ)} {l : List AggRow} {j : ℕ}
    {o : OutRow} (h : (addDaily prev l)[j]? = some o) :
    ∃ a, l[j]? = some a ∧ o.country = a.country ∧ o.date = a.date ∧
      o.lat = a.lat.getD 0 ∧ o.lon = a.lon.getD 0 ∧
      o.total_confirmed = a.total_confirmed ∧ o.total_deaths = a.total_deaths ∧
      o.total_recovered = a.total_recovered := by
  induction l generalizing prev j with
  | nil => simp [addDaily] at h
  | cons r rs ih =>
    cases j with
    | zero =>
      simp only [addDaily, List.getElem?_cons_zero, Option.some.injEq] at h
      subst h
      exact ⟨r, List.getElem?_cons_zero, rfl, rfl, rfl, rfl, rfl, rfl, rfl⟩
    | succ j =>
      simp only [addDaily, List.getElem?_cons_succ] at h
      simp only [List.getElem?_cons_succ]
      exact ih h

theorem sumOpt_eq_map_getD (l : List (Option ℤ)) :
    sumOpt l = (l.map fun x => x.getD 0).sum := by
  induction l with
  | nil => rfl
  | cons x t ih =>
    cases x with
    | none =>
      have hl : sumOpt (none :: t) = sumOpt t := by
        simp [sumOpt]
      rw [hl, ih]
      simp
    | some v =>
      have hl : sumOpt (some v :: t) = v + sumOpt t := by
        simp [sumOpt]
      rw [hl, ih]
      simp

theorem meanOpt_all_none {l : List (Option ℚ)} (h : ∀ x ∈ l, x = none) :
    meanOpt l = none := by
  have he : l.filterMap id = [] := List.filterMap_eq_nil_iff.mpr h
  unfold meanOpt
  rw [he]

theorem aggregate_getElem? {m : List MergedRow} {j : ℕ} {a : AggRow}
    (h : (aggregate m)[j]? = some a) :
    a.lat = meanOpt ((groupRows m (a.country, a.date)).map MergedRow.lat) ∧
    a.lon = meanOpt ((groupRows m (a.country, a.date)).map MergedRow.lon) ∧
    a.total_confirmed = sumOpt ((groupRows m (a.country, a.date)).map MergedRow.confirmed) ∧
    a.total_deaths = sumOpt ((groupRows m (a.country, a.date)).map MergedRow.deaths) ∧
    a.total_recovered = sumOpt ((groupRows m (a.country, a.date)).map MergedRow.recovered) := by
  rw [aggregate, List.getElem?_map] at h
  cases hk : (sortedKeys m)[j]? with
  | none =>
    rw [hk] at h
    exact Option.noConfusion (show (none : Option AggRow) = some a from h)
  | some k =>
    rw [hk] at h
    have h3 := Option.some.inj h
    subst h3
    exact ⟨rfl, rfl, rfl, rfl, rfl⟩

theorem strLt_trans {a b c : String} (h1 : strLt a b) (h2 : strLt b c) : strLt a c := by
  have h1b : List.Lex (· < ·) a.data b.data := h1
  have h2b : List.Lex (· < ·) b.data c.data := h2
  show List.Lex (· < ·) a.data c.data
  exact IsTrans.trans _ _ _ h1b h2b

theorem strLt_asymm {a b : String} (h1 : strLt a b) (h2 : strLt b a) : False := by
  have h1b : List.Lex (· < ·) a.data b.data := h1
  have h2b : List.Lex (· < ·) b.data a.data := h2
  exact IsAsymm.asymm _ _ h1b h2b

theorem strLt_trichotomy (a b : String) : strLt a b ∨ a = b ∨ strLt b a := by
  have ht : List.Lex (· < ·) a.data b.data ∨ a.data = b.data ∨
      List.Lex (· < ·) b.data a.data :=
    trichotomous_of (List.Lex (· < ·)) a.data b.data
  rcases ht with h | h | h
  · exact Or.inl h
  · exact Or.inr (Or.inl (String.ext h))
  · exact Or.inr (Or.inr h)

theorem strLe_antisymm {a b : String} (h1 : strLe a b) (h2 : strLe b a) : a = b := by
  rcases h1 with h1 | h1
  · rcases h2 with h2 | h2
    · exact (strLt_asymm h1 h2).elim
    · exact h2.symm
  · exact h1

instance : IsTrans (String × ℕ) keyLe := by
  constructor
  intro a b c h1 h2
  rcases h1 with h1 | ⟨e1, n1⟩
  · rcases h2 with h2 | ⟨e2, n2⟩
    · exact Or.inl (strLt_trans h1 h2)
    · exact Or.inl (e2 ▸ h1)
  · rcases h2 with h2 | ⟨e2, n2⟩
    · exact Or.inl (e1 ▸ h2)
    · exact Or.inr ⟨e1.trans e2, n1.trans n2⟩

instance : IsTotal (String × ℕ) keyLe := by
  constructor
  intro a b
  rcases strLt_trichotomy a.1 b.1 with h | h | h
  · exact Or.inl (Or.inl h)
  · rcases Nat.le_total a.2 b.2 with hn | hn
    · exact Or.inl (Or.inr ⟨h, hn⟩)
    · exact Or.inr (Or.inr ⟨h.symm, hn⟩)
  · exact Or.inr (Or.inl h)

theorem keyLe_strLe {a b : String × ℕ} (h : keyLe a b) : strLe a.1 b.1 :=
  h.imp id And.left

theorem sortedKeys_sorted (m : List MergedRow) : (sortedKeys m).Sorted keyLe :=
  List.sorted_insertionSort keyLe _

theorem out_country_mono (conf deaths recov : RawTable) {i j : ℕ} {x y : OutRow}
    (hij : i < j)
    (hx : (load_world_data conf deaths recov)[i]? = some x)
    (hy : (load_world_data conf deaths recov)[j]? = some y) :
    strLe x.country y.country := by
  have hs : ((load_world_data conf deaths recov).map
      fun o => (o.country, o.date)).Pairwise keyLe := by
    rw [out_map_key]
    exact sortedKeys_sorted _
  obtain ⟨hix, hgx⟩ := List.getElem?_eq_some_iff.mp hx
  obtain ⟨hjy, hgy⟩ := List.getElem?_eq_some_iff.mp hy
  have hp := List.pairwise_iff_getElem.mp hs i j
    (by simpa using hix) (by simpa using hjy) hij
  rw [List.getElem_map, List.getElem_map, hgx, hgy] at hp
  exact keyLe_strLe hp

theorem take_getLast? {α : Type} {l : List α} {i : ℕ} {x : α} (h : l[i]? = some x) :
    (l.take (i + 1)).getLast? = some x := by
  induction l generalizing i with
  | nil => simp at h
  | cons a t ih =>
    cases i with
    | zero =>
      simp only [List.getElem?_cons_zero, Option.some.injEq] at h
      subst h
      rfl
    | succ i =>
      simp only [List.getElem?_cons_succ] at h
      have ih2 := ih h
      rw [List.take_succ_cons]
      cases hc : t.take (i + 1) with
      | nil =>
        rw [hc] at ih2
        simp at ih2
      | cons b u =>
        rw [hc] at ih2
        rw [List.getLast?_cons_cons]
        exact ih2

theorem filter_getLast? {α : Type} {l : List α} {pr : α → Bool} {x : α}
    (hl : l.getLast? = some x) (hx : pr x = true) :
    (l.filter pr).getLast? = some x := by
  induction l with
  | nil => simp at hl
  | cons a t ih =>
    cases t with
    | nil =>
      simp only [List.getLast?_singleton, Option.some.injEq] at hl
      subst hl
      simp [List.filter, hx]
    | cons b u =>
      rw [List.getLast?_cons_cons] at hl
      have ih2 := ih hl
      by_cases hpa : pr a = true
      · rw [List.filter_cons_of_pos hpa]
        cases hc : (b :: u).filter pr with
        | nil =>
          rw [hc] at ih2
          simp at ih2
        | cons c v =>
          rw [hc] at ih2
          rw [List.getLast?_cons_cons]
          exact ih2
      · rw [List.filter_cons_of_neg (by simpa using hpa)]
        exact ih2

theorem addDaily_consec {prev : Option (ℤ × ℤ × ℤ)} {l : List AggRow} {i : ℕ}
    {q o : OutRow}
    (hq : (addDaily prev l)[i]? = some q) (ho : (addDaily prev l)[i + 1]? = some o) :
    o.daily_confirmed = max (o.total_confirmed - q.total_confirmed) 0 ∧
    o.daily_deaths = max (o.total_deaths - q.total_deaths) 0 ∧
    o.daily_recovered = max (o.total_recovered - q.total_recovered) 0 := by
  induction l generalizing prev i with
  | nil => simp [addDaily] at hq
  | cons r rs ih =>
    cases i with
    | zero =>
      simp only [addDaily, List.getElem?_cons_zero, Option.some.injEq] at hq
      simp only [addDaily, List.getElem?_cons_succ] at ho
      cases rs with
      | nil => simp [addDaily] at ho
      | cons r2 rs2 =>
        simp only [addDaily, List.getElem?_cons_zero, Option.some.injEq] at ho
        subst hq
        subst ho
        exact ⟨rfl, rfl, rfl⟩
    | succ i =>
      simp only [addDaily, List.getElem?_cons_succ] at hq ho
      exact ih hq ho

/-! ## Claim theorems -/

/-- C5: for all input triples, `load_world_data` produces exactly one
output row per (country, date) pair present in the key universe of
the confirmed table, and no others: keys appearing only in the deaths
or recovered tables contribute no rows (the left joins keep exactly
the confirmed key set, and the groupby collapses it to one row per
pair). Proved without any assumption on the triples, which covers in
particular the valid triples with identical key and date-column sets
named by the claim. -/
theorem claim_rows_follow_confirmed_keys (conf deaths recov : RawTable) :
    ((load_world_data conf deaths recov).map fun o => (o.country, o.date)).Nodup ∧
    ∀ p : String × ℕ,
      (p ∈ (load_world_data conf deaths recov).map fun o => (o.country, o.date)) ↔
        p ∈ (melt conf).map fun r => (r.country, r.date) := by
  rw [out_map_key]
  constructor
  · unfold sortedKeys
    exact (List.perm_insertionSort keyLe _).nodup_iff.mpr (List.nodup_dedup _)
  · intro p
    unfold sortedKeys
    rw [List.mem_insertionSort, List.mem_dedup]
    exact mem_merge3_key _ _ _ p

/-- C1: the spec states that the earliest-date row of each country has
daily_confirmed = daily_deaths = daily_recovered = 0 regardless of the
total values, expecting daily_confirmed `[0, 5]` and `[0, 0]` on the
worked two-country example. The source computes `diff()` over the
whole frame without grouping by country, so the earliest row of
country "B" receives the clamped cross-country difference
100 − 15 = 85 instead of 0: the produced daily_confirmed column is
`[0, 5, 85, 0]`, not `[0, 5, 0, 0]`. -/
theorem claim_first_row_per_country :
    (load_world_data exConf exDeaths exRecov).map OutRow.daily_confirmed = [0, 5, 85, 0] ∧
    (load_world_data exConf exDeaths exRecov).map OutRow.daily_deaths = [0, 0, 0, 0] ∧
    (load_world_data exConf exDeaths exRecov).map OutRow.daily_recovered = [0, 0, 0, 0] :=
  ⟨by decide, by decide, by decide⟩

/-- C3: every row of the returned table satisfies
daily_confirmed ≥ 0, daily_deaths ≥ 0 and daily_recovered ≥ 0, for
every input triple, including inputs whose cumulative totals decrease
along dates within a country. -/
theorem claim_daily_nonneg (conf deaths recov : RawTable) (o : OutRow)
    (h : o ∈ load_world_data conf deaths recov) :
    0 ≤ o.daily_confirmed ∧ 0 ≤ o.daily_deaths ∧ 0 ≤ o.daily_recovered :=
  ⟨(addDaily_mem h).1, (addDaily_mem h).2.1, (addDaily_mem h).2.2.1⟩

/-- Witness for C3, on the example input whose country "B" totals
decrease from 100 to 90: the clamped row still has all daily values
non-negative. -/
theorem claim_daily_nonneg_witness :
    ((⟨"B", 1, 0, 0, 90, 0, 0, 0, 0, 0, 90⟩ : OutRow) ∈
        load_world_data exConf exDeaths exRecov) ∧
    (0 ≤ (⟨"B", 1, 0, 0, 90, 0, 0, 0, 0, 0, 90⟩ : OutRow).daily_confirmed ∧
     0 ≤ (⟨"B", 1, 0, 0, 90, 0, 0, 0, 0, 0, 90⟩ : OutRow).daily_deaths ∧
     0 ≤ (⟨"B", 1, 0, 0, 90, 0, 0, 0, 0, 0, 90⟩ : OutRow).daily_recovered) :=
  ⟨by decide, claim_daily_nonneg exConf exDeaths exRecov _ (by decide)⟩

/-- C4: every output row satisfies
daily_active = total_confirmed − total_recovered − total_deaths, and
the value is not clamped: on an inconsistent input (20 recovered
against 10 confirmed) a negative daily_active row is produced. -/
theorem claim_daily_active_unclamped :
    (∀ (conf deaths recov : RawTable) (o : OutRow),
        o ∈ load_world_data conf deaths recov →
        o.daily_active = o.total_confirmed - o.total_recovered - o.total_deaths) ∧
    (∃ o ∈ load_world_data exConf exDeaths exRecovBig, o.daily_active < 0) :=
  ⟨fun _ _ _ _ h => (addDaily_mem h).2.2.2,
   ⟨⟨"A", 0, 0, 0, 10, 0, 20, 0, 0, 0, -10⟩, by decide, by decide⟩⟩

/-- Witness for C4 at a concrete row of the worked example. -/
theorem claim_daily_active_unclamped_witness :
    ((⟨"A", 0, 0, 0, 10, 0, 0, 0, 0, 0, 10⟩ : OutRow) ∈
        load_world_data exConf exDeaths exRecov) ∧
    (⟨"A", 0, 0, 0, 10, 0, 0, 0, 0, 0, 10⟩ : OutRow).daily_active =
      (⟨"A", 0, 0, 0, 10, 0, 0, 0, 0, 0, 10⟩ : OutRow).total_confirmed -
      (⟨"A", 0, 0, 0, 10, 0, 0, 0, 0, 0, 10⟩ : OutRow).total_recovered -
      (⟨"A", 0, 0, 0, 10, 0, 0, 0, 0, 0, 10⟩ : OutRow).total_deaths :=
  ⟨by decide, claim_daily_active_unclamped.1 exConf exDeaths exRecov _ (by decide)⟩

/-- C6: the spec states that every transport failure (unreachable
network as well as non-2xx response) with a populated cache leads to a
warning plus a fallback read of the caches, with the marker untouched.
The source catches only `HTTPError` (its own comment says "if there is
no connection, read data from file", yet an unreachable network raises
`URLError`, which is not a subclass it catches): a non-`HTTPError`
transport failure propagates uncaught instead of falling back. The
`HTTPError` case does fall back as specified. -/
theorem claim_transport_failure_fallback :
    load_data (⟨1, 2, 3, none⟩ : FS ℕ) "01.01.2021" (.ok 7) .otherError (.ok 9) =
      .raised ∧
    load_data (⟨1, 2, 3, none⟩ : FS ℕ) "01.01.2021" .httpError (.ok 8) (.ok 9) =
      .result (1, 2, 3) true true ⟨1, 2, 3, none⟩ :=
  ⟨by decide, by decide⟩

/-- C7: `up_to_date` returns true iff the stored marker content
(stripped of surrounding whitespace, as the source does before
comparing) equals the current day-granularity date string; it returns
false when the marker is missing or unreadable; and
`change_last_update` followed by `up_to_date` on the same calendar day
returns true. The hypothesis records that a `%d.%m.%Y`-formatted date
string carries no surrounding whitespace. -/
theorem claim_freshness_tracker {τ : Type} (fs : FS τ) (today : String)
    (h : stripStr today = today) :
    (up_to_date fs today = true ↔ ∃ s, fs.marker = some s ∧ stripStr s = today) ∧
    (fs.marker = none → up_to_date fs today = false) ∧
    up_to_date (change_last_update fs today) today = true := by
  refine ⟨?_, ?_, ?_⟩
  · cases hm : fs.marker with
    | none => simp [up_to_date, hm]
    | some s =>
      have hup : up_to_date fs today = (today == stripStr s) := by
        simp [up_to_date, hm]
      rw [hup, beq_iff_eq]
      constructor
      · intro ht
        exact ⟨s, rfl, ht.symm⟩
      · rintro ⟨s2, hs2, ht⟩
        cases hs2
        exact ht.symm
  · intro hm
    simp [up_to_date, hm]
  · simp [up_to_date, change_last_update, h]

/-- Witness for C7 at a concrete marker state and date. -/
theorem claim_freshness_tracker_witness :
    stripStr "01.01.2021" = "01.01.2021" ∧
    ((up_to_date (⟨0, 0, 0, none⟩ : FS ℕ) "01.01.2021" = true ↔
        ∃ s, (⟨0, 0, 0, none⟩ : FS ℕ).marker = some s ∧ stripStr s = "01.01.2021") ∧
     ((⟨0, 0, 0, none⟩ : FS ℕ).marker = none →
        up_to_date (⟨0, 0, 0, none⟩ : FS ℕ) "01.01.2021" = false) ∧
     up_to_date (change_last_update (⟨0, 0, 0, none⟩ : FS ℕ) "01.01.2021")
        "01.01.2021" = true) :=
  ⟨by decide, claim_freshness_tracker (⟨0, 0, 0, none⟩ : FS ℕ) "01.01.2021" (by decide)⟩

/-- C8: on a fully successful fetch when stale, `load_data` writes the
three fetched tables to the caches, sets the marker to the current
date, and returns the fetched tables; when the tracker reports fresh
it returns the cached tables with no network access. -/
theorem claim_loader_success_and_fresh_paths {τ : Type} (fs : FS τ) (today : String)
    (tc td tr : τ) :
    (up_to_date fs today = false →
      load_data fs today (.ok tc) (.ok td) (.ok tr) =
        .result (tc, td, tr) false true ⟨tc, td, tr, some today⟩) ∧
    (up_to_date fs today = true → ∀ fc fd fr,
      load_data fs today fc fd fr =
        .result (fs.cacheC, fs.cacheD, fs.cacheR) false false fs) := by
  constructor
  · intro h
    simp [load_data, h, change_last_update]
  · intro h fc fd fr
    simp [load_data, h]

/-- Witness for C8: the stale-success path on a concrete state. -/
theorem claim_loader_success_and_fresh_paths_witness :
    up_to_date (⟨1, 2, 3, none⟩ : FS ℕ) "01.01.2021" = false ∧
    load_data (⟨1, 2, 3, none⟩ : FS ℕ) "01.01.2021" (.ok 7) (.ok 8) (.ok 9) =
      .result (7, 8, 9) false true ⟨7, 8, 9, some "01.01.2021"⟩ :=
  ⟨by decide,
   (claim_loader_success_and_fresh_paths (⟨1, 2, 3, none⟩ : FS ℕ) "01.01.2021" 7 8 9).1
     (by decide)⟩

/-- C9: the reshape-and-join pipeline is a deterministic pure function
of its three input tables: identical inputs yield identical outputs,
with no dependency on randomness, hidden state, or the clock. -/
theorem claim_pipeline_deterministic (c d r c2 d2 r2 : RawTable)
    (hc : c = c2) (hd : d = d2) (hr : r = r2) :
    load_world_data c d r = load_world_data c2 d2 r2 := by
  subst hc
  subst hd
  subst hr
  rfl

/-- Witness for C9 on the worked example triple. -/
theorem claim_pipeline_deterministic_witness :
    exConf = exConf ∧
    load_world_data exConf exDeaths exRecov = load_world_data exConf exDeaths exRecov :=
  ⟨rfl, claim_pipeline_deterministic exConf exDeaths exRecov exConf exDeaths exRecov
    rfl rfl rfl⟩

/-- C10: the returned table has no missing cell in any column: each
total is the group sum in which a metric value left absent by the
left joins contributes 0 (`pandas` sum skips NaN), and a (country,
date) group whose provinces all lack latitude/longitude gets
lat = lon = 0 (the NaN mean is replaced by 0 by the final
`fillna(0)`) rather than a missing value. -/
theorem claim_no_missing_values (conf deaths recov : RawTable) (j : ℕ) (o : OutRow)
    (h : (load_world_data conf deaths recov)[j]? = some o) :
    o.total_confirmed =
      ((groupRows (merge3 (melt conf) (melt deaths) (melt recov))
          (o.country, o.date)).map fun x => x.confirmed.getD 0).sum ∧
    o.total_deaths =
      ((groupRows (merge3 (melt conf) (melt deaths) (melt recov))
          (o.country, o.date)).map fun x => x.deaths.getD 0).sum ∧
    o.total_recovered =
      ((groupRows (merge3 (melt conf) (melt deaths) (melt recov))
          (o.country, o.date)).map fun x => x.recovered.getD 0).sum ∧
    (((groupRows (merge3 (melt conf) (melt deaths) (melt recov))
          (o.country, o.date)).all fun x => x.lat.isNone) = true → o.lat = 0) ∧
    (((groupRows (merge3 (melt conf) (melt deaths) (melt recov))
          (o.country, o.date)).all fun x => x.lon.isNone) = true → o.lon = 0) := by
  have h2 : (addDaily none
      (aggregate (merge3 (melt conf) (melt deaths) (melt recov))))[j]? = some o := h
  obtain ⟨a, ha, hco, hda, hlat, hlon, htc, htd, htr⟩ := addDaily_getElem? h2
  obtain ⟨glat, glon, gtc, gtd, gtr⟩ := aggregate_getElem? ha
  rw [hco, hda]
  refine ⟨?_, ?_, ?_, ?_, ?_⟩
  · rw [htc, gtc, sumOpt_eq_map_getD, List.map_map]
    rfl
  · rw [htd, gtd, sumOpt_eq_map_getD, List.map_map]
    rfl
  · rw [htr, gtr, sumOpt_eq_map_getD, List.map_map]
    rfl
  · intro hall
    have hn : ∀ x ∈ (groupRows (merge3 (melt conf) (melt deaths) (melt recov))
        (a.country, a.date)).map MergedRow.lat, x = none := by
      intro x hx
      obtain ⟨y, hy, rfl⟩ := List.mem_map.mp hx
      exact Option.isNone_iff_eq_none.mp (List.all_eq_true.mp hall y hy)
    rw [hlat, glat, meanOpt_all_none hn]
    rfl
  · intro hall
    have hn : ∀ x ∈ (groupRows (merge3 (melt conf) (melt deaths) (melt recov))
        (a.country, a.date)).map MergedRow.lon, x = none := by
      intro x hx
      obtain ⟨y, hy, rfl⟩ := List.mem_map.mp hx
      exact Option.isNone_iff_eq_none.mp (List.all_eq_true.mp hall y hy)
    rw [hlon, glon, meanOpt_all_none hn]
    rfl

/-- Witness for C10 at row 0 of the worked example, whose group has
no latitude or longitude data at all and still yields lat = lon = 0. -/
theorem claim_no_missing_values_witness :
    ((load_world_data exConf exDeaths exRecov)[0]? =
        some ⟨"A", 0, 0, 0, 10, 0, 0, 0, 0, 0, 10⟩) ∧
    ((⟨"A", 0, 0, 0, 10, 0, 0, 0, 0, 0, 10⟩ : OutRow).total_confirmed =
      ((groupRows (merge3 (melt exConf) (melt exDeaths) (melt exRecov))
          ((⟨"A", 0, 0, 0, 10, 0, 0, 0, 0, 0, 10⟩ : OutRow).country,
           (⟨"A", 0, 0, 0, 10, 0, 0, 0, 0, 0, 10⟩ : OutRow).date)).map
        fun x => x.confirmed.getD 0).sum ∧
    (⟨"A", 0, 0, 0, 10, 0, 0, 0, 0, 0, 10⟩ : OutRow).total_deaths =
      ((groupRows (merge3 (melt exConf) (melt exDeaths) (melt exRecov))
          ((⟨"A", 0, 0, 0, 10, 0, 0, 0, 0, 0, 10⟩ : OutRow).country,
           (⟨"A", 0, 0, 0, 10, 0, 0, 0, 0, 0, 10⟩ : OutRow).date)).map
        fun x => x.deaths.getD 0).sum ∧
    (⟨"A", 0, 0, 0, 10, 0, 0, 0, 0, 0, 10⟩ : OutRow).total_recovered =
      ((groupRows (merge3 (melt exConf) (melt exDeaths) (melt exRecov))
          ((⟨"A", 0, 0, 0, 10, 0, 0, 0, 0, 0, 10⟩ : OutRow).country,
           (⟨"A", 0, 0, 0, 10, 0, 0, 0, 0, 0, 10⟩ : OutRow).date)).map
        fun x => x.recovered.getD 0).sum ∧
    (((groupRows (merge3 (melt exConf) (melt exDeaths) (melt exRecov))
          ((⟨"A", 0, 0, 0, 10, 0, 0, 0, 0, 0, 10⟩ : OutRow).country,
           (⟨"A", 0, 0, 0, 10, 0, 0, 0, 0, 0, 10⟩ : OutRow).date)).all
        fun x => x.lat.isNone) = true →
      (⟨"A", 0, 0, 0, 10, 0, 0, 0, 0, 0, 10⟩ : OutRow).lat = 0) ∧
    (((groupRows (merge3 (melt exConf) (melt exDeaths) (melt exRecov))
          ((⟨"A", 0, 0, 0, 10, 0, 0, 0, 0, 0, 10⟩ : OutRow).country,
           (⟨"A", 0, 0, 0, 10, 0, 0, 0, 0, 0, 10⟩ : OutRow).date)).all
        fun x => x.lon.isNone) = true →
      (⟨"A", 0, 0, 0, 10, 0, 0, 0, 0, 0, 10⟩ : OutRow).lon = 0)) :=
  ⟨by decide,
   claim_no_missing_values exConf exDeaths exRecov 0
     ⟨"A", 0, 0, 0, 10, 0, 0, 0, 0, 0, 10⟩ (by decide)⟩

/-- C2: every output row that has a preceding row of the same country
in the (country, date)-ascending row order has each daily metric equal
to the first difference against the nearest preceding row of that
country, with negative differences replaced by zero. (The source
takes the difference against the previous row of the whole frame; for
a row with a same-country predecessor the two coincide, because the
output rows are sorted by country with one row per (country, date)
key, so same-country rows are contiguous.) -/
theorem claim_daily_is_clamped_prev_diff (conf deaths recov : RawTable) (j : ℕ)
    (o p : OutRow)
    (ho : (load_world_data conf deaths recov)[j]? = some o)
    (hp : prevSameCountry (load_world_data conf deaths recov) j = some p) :
    o.daily_confirmed = max (o.total_confirmed - p.total_confirmed) 0 ∧
    o.daily_deaths = max (o.total_deaths - p.total_deaths) 0 ∧
    o.daily_recovered = max (o.total_recovered - p.total_recovered) 0 := by
  cases j with
  | zero =>
    simp [prevSameCountry, ho] at hp
  | succ i =>
    obtain ⟨hjlen, _⟩ := List.getElem?_eq_some_iff.mp ho
    have hilen : i < (load_world_data conf deaths recov).length := Nat.lt_of_succ_lt hjlen
    obtain ⟨q, hqe⟩ : ∃ q, (load_world_data conf deaths recov)[i]? = some q :=
      ⟨_, List.getElem?_eq_getElem hilen⟩
    simp only [prevSameCountry, ho] at hp
    have hpm := List.mem_of_mem_getLast? hp
    obtain ⟨hptake, hpcb⟩ := List.mem_filter.mp hpm
    have hpc : p.country = o.country := beq_iff_eq.mp hpcb
    have hqc : q.country = o.country := by
      obtain ⟨i2, hi2⟩ := List.getElem?_of_mem hptake
      rw [List.getElem?_take] at hi2
      by_cases hlt : i2 < i + 1
      · rw [if_pos hlt] at hi2
        rcases Nat.lt_succ_iff_lt_or_eq.mp hlt with hlt2 | heq
        · have h1 : strLe p.country q.country :=
            out_country_mono conf deaths recov hlt2 hi2 hqe
          have h2 : strLe q.country o.country :=
            out_country_mono conf deaths recov (Nat.lt_succ_self i) hqe ho
          have h1b : strLe o.country q.country := hpc ▸ h1
          exact strLe_antisymm h2 h1b
        · subst heq
          have hqp : q = p := Option.some.inj (hqe.symm.trans hi2)
          rw [hqp, hpc]
      · rw [if_neg hlt] at hi2
        exact Option.noConfusion hi2
    have hqlast : ((load_world_data conf deaths recov).take (i + 1)).getLast? = some q :=
      take_getLast? hqe
    have hfl : (((load_world_data conf deaths recov).take (i + 1)).filter
        fun x => x.country == o.country).getLast? = some q :=
      filter_getLast? hqlast (beq_iff_eq.mpr hqc)
    have hpq : p = q := Option.some.inj (hp.symm.trans hfl)
    have hcons := addDaily_consec
      (show (addDaily none
        (aggregate (merge3 (melt conf) (melt deaths) (melt recov))))[i]? = some q from hqe)
      (show (addDaily none
        (aggregate (merge3 (melt conf) (melt deaths) (melt recov))))[i + 1]? = some o from ho)
    rw [hpq]
    exact hcons

/-- Witness for C2 at the second row of country "A" in the worked
example: its daily metrics are the clamped differences against the
first row of country "A". -/
theorem claim_daily_is_clamped_prev_diff_witness :
    ((load_world_data exConf exDeaths exRecov)[1]? =
        some ⟨"A", 1, 0, 0, 15, 0, 0, 5, 0, 0, 15⟩) ∧
    (prevSameCountry (load_world_data exConf exDeaths exRecov) 1 =
        some ⟨"A", 0, 0, 0, 10, 0, 0, 0, 0, 0, 10⟩) ∧
    ((⟨"A", 1, 0, 0, 15, 0, 0, 5, 0, 0, 15⟩ : OutRow).daily_confirmed =
        max ((⟨"A", 1, 0, 0, 15, 0, 0, 5, 0, 0, 15⟩ : OutRow).total_confirmed -
          (⟨"A", 0, 0, 0, 10, 0, 0, 0, 0, 0, 10⟩ : OutRow).total_confirmed) 0 ∧
     (⟨"A", 1, 0, 0, 15, 0, 0, 5, 0, 0, 15⟩ : OutRow).daily_deaths =
        max ((⟨"A", 1, 0, 0, 15, 0, 0, 5, 0, 0, 15⟩ : OutRow).total_deaths -
          (⟨"A", 0, 0, 0, 10, 0, 0, 0, 0, 0, 10⟩ : OutRow).total_deaths) 0 ∧
     (⟨"A", 1, 0, 0, 15, 0, 0, 5, 0, 0, 15⟩ : OutRow).daily_recovered =
        max ((⟨"A", 1, 0, 0, 15, 0, 0, 5, 0, 0, 15⟩ : OutRow).total_recovered -
          (⟨"A", 0, 0, 0, 10, 0, 0, 0, 0, 0, 10⟩ : OutRow).total_recovered) 0) :=
  ⟨by decide, by decide,
   claim_daily_is_clamped_prev_diff exConf exDeaths exRecov 1
     ⟨"A", 1, 0, 0, 15, 0, 0, 5, 0, 0, 15⟩ ⟨"A", 0, 0, 0, 10, 0, 0, 0, 0, 0, 10⟩
     (by decide) (by decide)⟩

end CovidDash
